import Mathlib

/-!
Shallow embedding of `src/src/main.cpp` (an SDL3 callback-driven sample
application) and proofs about its lifecycle callbacks
`SDL_AppInit`, `SDL_AppEvent`, `SDL_AppIterate`, `SDL_AppQuit`.

Modelling conventions:
* Opaque native handles (`SDL_Window*`, `SDL_Renderer*`, `SDL_Texture*`)
  are modelled as `Nat` ids; the two texture pointers are `Option Nat`
  because the code stores them without a null check.
* External library calls made by `SDL_AppInit` are modelled by an
  environment record `InitEnv` holding each call's result.
* `SDL_AppIterate` and `SDL_AppQuit` return, besides the updated state,
  the list of observable effects they issue (log lines, render commands,
  teardown calls), in program order.
* `SDL_GetTicks()` returns milliseconds; the source computes
  `std::round(ticks / 1000.f)`.  For the tick ranges of interest this
  equals exact rounding of `ticks / 1000`, modelled in integer
  arithmetic as `(ticks + 500) / 1000`.
-/

/-- Model of `SDL_AppResult` from SDL3. -/
inductive SDL_AppResult
  | SDL_APP_CONTINUE
  | SDL_APP_SUCCESS
  | SDL_APP_FAILURE
deriving DecidableEq, Repr

open SDL_AppResult

/-- Model of `SDL_FRect`: the source stores float coordinates; modelled exactly over `ℚ`. -/
structure SDL_FRect where
  x : ℚ
  y : ℚ
  w : ℚ
  h : ℚ
deriving DecidableEq, Repr

/-- The `AppContext` struct of `main.cpp`. -/
structure AppContext where
  window : Nat
  renderer : Nat
  messageTex : Option Nat
  imageTex : Option Nat
  messageDest : SDL_FRect
  iteration : Int
  app_quit : SDL_AppResult
deriving DecidableEq, Repr

/-- The event types the code inspects; every other `SDL_Event` type is
collapsed into `SDL_EVENT_OTHER` with its raw type code. -/
inductive SDL_EventType
  | SDL_EVENT_QUIT
  | SDL_EVENT_KEY_DOWN
  | SDL_EVENT_OTHER (code : Nat)
deriving DecidableEq, Repr

open SDL_EventType

/-- The fields of `SDL_Event` the code reads: the type tag and, for key
events, the keycode `event->key.key`. -/
structure SDL_Event where
  type : SDL_EventType
  key : Nat
deriving DecidableEq, Repr

def SDLK_ESCAPE : Nat := 27

/-- Model of `SDL_AppEvent` from `main.cpp`: sets `app_quit` to success on a quit
event, then on a `KEY_DOWN` whose key is Escape; always returns
`SDL_APP_CONTINUE`. -/
def SDL_AppEvent (app : AppContext) (event : SDL_Event) : AppContext × SDL_AppResult :=
  let app1 :=
    if event.type = SDL_EVENT_QUIT then
      { app with app_quit := SDL_APP_SUCCESS }
    else app
  let app2 :=
    match event.type with
    | SDL_EVENT_KEY_DOWN =>
        if event.key = SDLK_ESCAPE then
          { app1 with app_quit := SDL_APP_SUCCESS }
        else app1
    | _ => app1
  (app2, SDL_APP_CONTINUE)

/-- Folding a sequence of events through `SDL_AppEvent` (the external
run loop delivers events one at a time). -/
def runEvents (app : AppContext) (es : List SDL_Event) : AppContext :=
  es.foldl (fun a e => (SDL_AppEvent a e).1) app

/-- The event is a quit signal or an Escape key-down: exactly the
conditions under which `SDL_AppEvent` writes `app_quit`. -/
def isQuitOrEscape (e : SDL_Event) : Prop :=
  e.type = SDL_EVENT_QUIT ∨ (e.type = SDL_EVENT_KEY_DOWN ∧ e.key = SDLK_ESCAPE)

instance : DecidablePred isQuitOrEscape := fun e => by
  unfold isQuitOrEscape; infer_instance

/-- Model of `SDL_Color`, as four 8-bit channels. -/
structure SDL_Color where
  r : Nat
  g : Nat
  b : Nat
  a : Nat
deriving DecidableEq, Repr

/-- The render commands `SDL_AppIterate` issues, in order:
`SDL_SetRenderDrawColor`, `SDL_RenderClear`, `SDL_RenderTexture`
(src/dst rects nullable), `SDL_RenderPresent`. -/
inductive RenderCmd
  | setDrawColor (r g b a : Nat)
  | clear
  | texture (tex : Option Nat) (src dst : Option SDL_FRect)
  | present
deriving DecidableEq, Repr

/-- Value of `std::round(ticks / 1000.f)` for `ticks` in milliseconds, in exact
integer arithmetic (round half away from zero on a nonnegative value). -/
def roundTicks (ticks : Nat) : Nat := (ticks + 500) / 1000

/-- Everything one `SDL_AppIterate` call produces: the updated state, the
`std::cout` log lines (the printed integer seconds), the render-command
sequence, and the returned `SDL_AppResult`. -/
structure IterateOutput where
  app : AppContext
  logs : List Int
  cmds : List RenderCmd
  ret : SDL_AppResult
deriving Repr

/-- Model of `SDL_AppIterate` from `main.cpp`, parameterized by the current
`SDL_GetTicks()` value in milliseconds. -/
def SDL_AppIterate (ticks : Nat) (app : AppContext) : IterateOutput :=
  let seconds : Int := (roundTicks ticks : Nat)
  let logged : List Int × AppContext :=
    if seconds > app.iteration then
      ([seconds], { app with iteration := app.iteration + 1 })
    else
      ([], app)
  let app1 := logged.2
  { app := app1
    logs := logged.1
    cmds := [RenderCmd.setDrawColor 255 255 255 255,
             RenderCmd.clear,
             RenderCmd.texture app1.imageTex none none,
             RenderCmd.texture app1.messageTex none (some app1.messageDest),
             RenderCmd.present]
    ret := app1.app_quit }

/-- Iterating over a list of tick values (the per-frame `SDL_GetTicks()`
reads), collecting every log line in order. -/
def runIterate (app : AppContext) : List Nat → AppContext × List Int
  | [] => (app, [])
  | t :: ts =>
      let out := SDL_AppIterate t app
      let rest := runIterate out.app ts
      (rest.1, out.logs ++ rest.2)

/-- The results of the external library calls `SDL_AppInit` makes, in
program order.  A `none` (or `false`) models the call failing / returning
null.  The file models the non-Android branch (`SDL_GetBasePath`); paths,
fonts and surfaces are opaque `Nat` ids.  `messageTexW`/`messageTexH` are
the values `SDL_GetNumberProperty` returns for the text texture's
`WIDTH`/`HEIGHT` properties (default 0). -/
structure InitEnv where
  sdlInitOK : Bool
  ttfInitOK : Bool
  createWindow : Option Nat
  createRenderer : Option Nat
  basePath : Option Nat
  openFont : Option Nat
  renderTextSurface : Option Nat
  messageTexture : Option Nat
  imgLoadSurface : Option Nat
  imageTexture : Option Nat
  messageTexW : Int
  messageTexH : Int
deriving DecidableEq, Repr

/-- Model of `SDL_AppInit` from `main.cpp`.  Returns the value stored through
`*appstate` (only written on the fully successful path) and the returned
`SDL_AppResult`.  The checks mirror the source exactly: `SDL_Init`,
`TTF_Init`, `SDL_CreateWindow`, `SDL_CreateRenderer`, `SDL_GetBasePath`
and `TTF_OpenFont` failures each abort with `SDL_APP_FAILURE`; the
results of `TTF_RenderText_Solid`, both `SDL_CreateTextureFromSurface`
calls and `IMG_Load` are stored/used without any null check. -/
def SDL_AppInit (env : InitEnv) : Option AppContext × SDL_AppResult :=
  if ¬ env.sdlInitOK then (none, SDL_APP_FAILURE)
  else if ¬ env.ttfInitOK then (none, SDL_APP_FAILURE)
  else
    match env.createWindow with
    | none => (none, SDL_APP_FAILURE)
    | some window =>
      match env.createRenderer with
      | none => (none, SDL_APP_FAILURE)
      | some renderer =>
        match env.basePath with
        | none => (none, SDL_APP_FAILURE)
        | some _basePath =>
          match env.openFont with
          | none => (none, SDL_APP_FAILURE)
          | some _font =>
            -- no null checks from here on, as in the source
            let messageTex := env.messageTexture
            let tex := env.imageTexture
            let text_rect : SDL_FRect :=
              { x := 0, y := 0,
                w := (env.messageTexW : ℚ),
                h := (env.messageTexH : ℚ) }
            (some { window := window
                    renderer := renderer
                    messageTex := messageTex
                    imageTex := tex
                    messageDest := text_rect
                    iteration := 0
                    app_quit := SDL_APP_CONTINUE },
             SDL_APP_CONTINUE)

/-- The teardown calls `SDL_AppQuit` makes, in program order. -/
inductive QuitAction
  | destroyRenderer (r : Nat)
  | destroyWindow (w : Nat)
  | freeState
  | ttfQuit
  | logQuitMessage
  | sdlQuit
deriving DecidableEq, Repr

/-- Model of `SDL_AppQuit` from `main.cpp`: if the state exists, destroy the
renderer, destroy the window and delete the state; then `TTF_Quit`, a
log line, and `SDL_Quit` happen unconditionally. -/
def SDL_AppQuit (app : Option AppContext) : List QuitAction :=
  (match app with
   | some a => [QuitAction.destroyRenderer a.renderer,
                QuitAction.destroyWindow a.window,
                QuitAction.freeState]
   | none => []) ++
  [QuitAction.ttfQuit, QuitAction.logQuitMessage, QuitAction.sdlQuit]

/-- The four owned handles of the `AppContext`. -/
inductive Handle
  | window
  | renderer
  | messageTex
  | imageTex
deriving DecidableEq, Repr

/-- Which handles a teardown call releases.  Per SDL's documented
ownership semantics, `SDL_DestroyRenderer` destroys the renderer and
every texture created from it — both textures here were created from
`app->renderer` via `SDL_CreateTextureFromSurface`.
`SDL_DestroyWindow` releases the window. -/
def releasesHandle (a : QuitAction) (h : Handle) : Bool :=
  match a, h with
  | QuitAction.destroyRenderer _, Handle.renderer => true
  | QuitAction.destroyRenderer _, Handle.messageTex => true
  | QuitAction.destroyRenderer _, Handle.imageTex => true
  | QuitAction.destroyWindow _, Handle.window => true
  | _, _ => false

/-- A point of the render target, in the float coordinate space of
`SDL_FRect`; modelled exactly over `ℚ`. -/
structure Pixel where
  px : ℚ
  py : ℚ
deriving DecidableEq, Repr

/-- Membership of a point in an `SDL_FRect` (half-open on each axis). -/
def SDL_FRect.contains (r : SDL_FRect) (p : Pixel) : Bool :=
  decide (r.x ≤ p.px) && decide (p.px < r.x + r.w) &&
  decide (r.y ≤ p.py) && decide (p.py < r.y + r.h)

/-- Destination coverage of `SDL_RenderTexture`: a null destination rect
means the entire render target. -/
def dstCovers (target : SDL_FRect) (dst : Option SDL_FRect) (p : Pixel) : Bool :=
  (dst.getD target).contains p

/-- How a texture draw colors a covered point: an opaque sampling
function supplied by the environment (texture contents are external). -/
def TexSampler : Type :=
  Option Nat → Option SDL_FRect → Option SDL_FRect → Pixel → SDL_Color

/-- The renderer state the command stream acts on: current draw color,
the backbuffer, and the last presented frame (if any). -/
structure RenderState where
  drawColor : SDL_Color
  fb : Pixel → SDL_Color
  presented : Option (Pixel → SDL_Color)

/-- Painter's-algorithm semantics of one render command: `clear` fills
the backbuffer with the draw color; a texture draw overwrites exactly
the points its destination covers (later draws occlude earlier ones;
the renderer has no depth ordering); `present` publishes the
backbuffer. -/
def applyCmd (target : SDL_FRect) (sample : TexSampler) (s : RenderState) :
    RenderCmd → RenderState
  | RenderCmd.setDrawColor r g b a => { s with drawColor := ⟨r, g, b, a⟩ }
  | RenderCmd.clear => { s with fb := fun _ => s.drawColor }
  | RenderCmd.texture tex src dst =>
      { s with fb := fun p => if dstCovers target dst p then sample tex src dst p else s.fb p }
  | RenderCmd.present => { s with presented := some s.fb }

/-- Running a command stream left to right. -/
def applyCmds (target : SDL_FRect) (sample : TexSampler) (s : RenderState)
    (cmds : List RenderCmd) : RenderState :=
  cmds.foldl (applyCmd target sample) s

/-! ### Helper lemmas shared across claims -/

lemma event_ret (app : AppContext) (e : SDL_Event) :
    (SDL_AppEvent app e).2 = SDL_APP_CONTINUE := by
  rcases e with ⟨ty, key⟩
  cases ty <;> simp [SDL_AppEvent]

lemma iterate_ret (t : Nat) (app : AppContext) :
    (SDL_AppIterate t app).ret = app.app_quit := by
  simp only [SDL_AppIterate]
  split <;> rfl

lemma iterate_fields (t : Nat) (app : AppContext) :
    (SDL_AppIterate t app).app.window = app.window ∧
    (SDL_AppIterate t app).app.renderer = app.renderer ∧
    (SDL_AppIterate t app).app.messageTex = app.messageTex ∧
    (SDL_AppIterate t app).app.imageTex = app.imageTex ∧
    (SDL_AppIterate t app).app.messageDest = app.messageDest ∧
    (SDL_AppIterate t app).app.app_quit = app.app_quit := by
  simp only [SDL_AppIterate]
  split <;> simp

lemma event_benign (app : AppContext) (e : SDL_Event) (h : ¬ isQuitOrEscape e) :
    SDL_AppEvent app e = (app, SDL_APP_CONTINUE) := by
  rcases e with ⟨ty, key⟩
  unfold isQuitOrEscape at h
  push_neg at h
  cases ty with
  | SDL_EVENT_QUIT => exact absurd rfl h.1
  | SDL_EVENT_KEY_DOWN =>
      have hk : key ≠ SDLK_ESCAPE := by simpa using h.2
      simp [SDL_AppEvent, hk]
  | SDL_EVENT_OTHER c => simp [SDL_AppEvent]

lemma event_sets_success (app : AppContext) (e : SDL_Event) (h : isQuitOrEscape e) :
    (SDL_AppEvent app e).1.app_quit = SDL_APP_SUCCESS := by
  rcases e with ⟨ty, key⟩
  rcases h with h | ⟨h1, h2⟩
  · cases h
    simp [SDL_AppEvent]
  · cases h1
    simp only at h2
    simp [SDL_AppEvent, h2]

lemma event_quit_cases (app : AppContext) (e : SDL_Event) :
    (SDL_AppEvent app e).1.app_quit = app.app_quit ∨
    (SDL_AppEvent app e).1.app_quit = SDL_APP_SUCCESS := by
  rcases e with ⟨ty, key⟩
  cases ty with
  | SDL_EVENT_QUIT => simp [SDL_AppEvent]
  | SDL_EVENT_KEY_DOWN =>
      by_cases hk : key = SDLK_ESCAPE <;> simp [SDL_AppEvent, hk]
  | SDL_EVENT_OTHER c => simp [SDL_AppEvent]

lemma event_preserves_success (app : AppContext) (e : SDL_Event)
    (h : app.app_quit = SDL_APP_SUCCESS) :
    (SDL_AppEvent app e).1.app_quit = SDL_APP_SUCCESS := by
  rcases event_quit_cases app e with h' | h'
  · rw [h', h]
  · exact h'

lemma runEvents_preserves_success (es : List SDL_Event) :
    ∀ app : AppContext, app.app_quit = SDL_APP_SUCCESS →
      (runEvents app es).app_quit = SDL_APP_SUCCESS := by
  induction es with
  | nil => intro app h; simpa [runEvents] using h
  | cons e es ih =>
      intro app h
      have : runEvents app (e :: es) = runEvents (SDL_AppEvent app e).1 es := by
        simp [runEvents]
      rw [this]
      exact ih _ (event_preserves_success app e h)

lemma runEvents_benign (es : List SDL_Event) :
    ∀ app : AppContext, (∀ e ∈ es, ¬ isQuitOrEscape e) → runEvents app es = app := by
  induction es with
  | nil => intro app _; rfl
  | cons e es ih =>
      intro app h
      have he : SDL_AppEvent app e = (app, SDL_APP_CONTINUE) :=
        event_benign app e (h e (by simp))
      have hstep : runEvents app (e :: es) = runEvents (SDL_AppEvent app e).1 es := by
        simp [runEvents]
      rw [hstep, he]
      exact ih app fun e' he' => h e' (by simp [he'])

/-! ### Claims -/

/-- C4: for every event that is neither a quit signal nor an Escape
key-press, and for every sequence of such events, `SDL_AppEvent` leaves
the whole `AppContext` unchanged (so a "continue" pending-result stays
"continue"), and `SDL_AppEvent` never fails. -/
theorem SDL_AppEvent_ignores_others_c4 :
    (∀ (app : AppContext) (es : List SDL_Event),
        (∀ e ∈ es, ¬ isQuitOrEscape e) → runEvents app es = app) ∧
    ∀ (app : AppContext) (e : SDL_Event),
      (SDL_AppEvent app e).2 ≠ SDL_APP_FAILURE := by
  constructor
  · intro app es h
    exact runEvents_benign es app h
  · intro app e
    rw [event_ret]
    intro hc
    cases hc

theorem SDL_AppEvent_ignores_others_c4_witness :
    runEvents
      { window := 1, renderer := 2, messageTex := some 3, imageTex := some 4,
        messageDest := ⟨0, 0, 10, 10⟩, iteration := 0, app_quit := SDL_APP_CONTINUE }
      [⟨SDL_EVENT_OTHER 771, 0⟩, ⟨SDL_EVENT_KEY_DOWN, 32⟩, ⟨SDL_EVENT_OTHER 1024, 27⟩]
      = { window := 1, renderer := 2, messageTex := some 3, imageTex := some 4,
          messageDest := ⟨0, 0, 10, 10⟩, iteration := 0, app_quit := SDL_APP_CONTINUE } :=
  SDL_AppEvent_ignores_others_c4.1 _ _ (by decide)

/-- C5: after `SDL_AppEvent` processes a quit-signal or Escape key-down
event, `app_quit` is `SDL_APP_SUCCESS`, and it stays `SDL_APP_SUCCESS`
after any further sequence of events (repeated quit events included). -/
theorem SDL_AppEvent_quit_sticky_c5 :
    ∀ (app : AppContext) (e : SDL_Event) (es : List SDL_Event),
      isQuitOrEscape e →
      (SDL_AppEvent app e).1.app_quit = SDL_APP_SUCCESS ∧
      (runEvents (SDL_AppEvent app e).1 es).app_quit = SDL_APP_SUCCESS := by
  intro app e es h
  have h1 := event_sets_success app e h
  exact ⟨h1, runEvents_preserves_success es _ h1⟩

theorem SDL_AppEvent_quit_sticky_c5_witness :
    (SDL_AppEvent
      { window := 1, renderer := 2, messageTex := some 3, imageTex := some 4,
        messageDest := ⟨0, 0, 10, 10⟩, iteration := 0, app_quit := SDL_APP_CONTINUE }
      ⟨SDL_EVENT_QUIT, 0⟩).1.app_quit = SDL_APP_SUCCESS ∧
    (runEvents
      (SDL_AppEvent
        { window := 1, renderer := 2, messageTex := some 3, imageTex := some 4,
          messageDest := ⟨0, 0, 10, 10⟩, iteration := 0, app_quit := SDL_APP_CONTINUE }
        ⟨SDL_EVENT_QUIT, 0⟩).1
      [⟨SDL_EVENT_QUIT, 0⟩, ⟨SDL_EVENT_KEY_DOWN, 27⟩, ⟨SDL_EVENT_OTHER 5, 0⟩]).app_quit
      = SDL_APP_SUCCESS :=
  SDL_AppEvent_quit_sticky_c5 _ _ _ (by decide)

/-- C8: every `SDL_AppIterate` call returns exactly the pending-result
flag currently stored in the `AppContext`. -/
theorem SDL_AppIterate_returns_flag_c8 :
    ∀ (t : Nat) (app : AppContext), (SDL_AppIterate t app).ret = app.app_quit := by
  intro t app
  exact iterate_ret t app

/-- C9: `SDL_AppEvent` itself always returns `SDL_APP_CONTINUE`, for
every event including quit signals and Escape key-presses; termination
is communicated only through the stored `app_quit` flag, which the next
`SDL_AppIterate` call returns. -/
theorem SDL_AppEvent_returns_continue_c9 :
    ∀ (app : AppContext) (e : SDL_Event),
      (SDL_AppEvent app e).2 = SDL_APP_CONTINUE ∧
      ∀ t : Nat,
        (SDL_AppIterate t (SDL_AppEvent app e).1).ret = (SDL_AppEvent app e).1.app_quit := by
  intro app e
  exact ⟨event_ret app e, fun t => iterate_ret t _⟩

/-- C10: `SDL_AppIterate` mutates only the `iteration` counter — the
pending-result flag, the destination rectangle and all four handles are
unchanged — and the counter grows by at most one per call, so it is
monotonically non-decreasing. -/
theorem SDL_AppIterate_frame_effect_c10 :
    ∀ (t : Nat) (app : AppContext),
      (SDL_AppIterate t app).app.window = app.window ∧
      (SDL_AppIterate t app).app.renderer = app.renderer ∧
      (SDL_AppIterate t app).app.messageTex = app.messageTex ∧
      (SDL_AppIterate t app).app.imageTex = app.imageTex ∧
      (SDL_AppIterate t app).app.messageDest = app.messageDest ∧
      (SDL_AppIterate t app).app.app_quit = app.app_quit ∧
      ((SDL_AppIterate t app).app.iteration = app.iteration ∨
        (SDL_AppIterate t app).app.iteration = app.iteration + 1) ∧
      app.iteration ≤ (SDL_AppIterate t app).app.iteration := by
  intro t app
  obtain ⟨h1, h2, h3, h4, h5, h6⟩ := iterate_fields t app
  refine ⟨h1, h2, h3, h4, h5, h6, ?_, ?_⟩
  · simp only [SDL_AppIterate]
    split <;> simp
  · simp only [SDL_AppIterate]
    split <;> simp [Int.le_add_one]

/-- C1 (amended): `SDL_AppInit` is all-or-nothing for the steps it
actually checks.  If subsystem init, text-subsystem init, window
creation, renderer creation, base-path resolution or font open fails,
`SDL_AppInit` returns `SDL_APP_FAILURE` and exposes no state.  (Text
rasterization, the texture uploads and the image decode are *not*
checked; see the counterexample.) -/
theorem SDL_AppInit_all_or_nothing_c1 :
    ∀ env : InitEnv,
      (env.sdlInitOK = false ∨ env.ttfInitOK = false ∨ env.createWindow = none ∨
        env.createRenderer = none ∨ env.basePath = none ∨ env.openFont = none) →
      SDL_AppInit env = (none, SDL_APP_FAILURE) := by
  intro env h
  rcases env with ⟨sdl, ttf, cw, cr, bp, fo, rts, mt, ils, it, tw, th⟩
  cases sdl <;> cases ttf <;> cases cw <;> cases cr <;> cases bp <;> cases fo <;>
    simp_all [SDL_AppInit]

theorem SDL_AppInit_all_or_nothing_c1_witness :
    SDL_AppInit
      { sdlInitOK := true, ttfInitOK := true, createWindow := some 1,
        createRenderer := some 2, basePath := some 3, openFont := none,
        renderTextSurface := none, messageTexture := none, imgLoadSurface := none,
        imageTexture := none, messageTexW := 0, messageTexH := 0 }
      = (none, SDL_APP_FAILURE) :=
  SDL_AppInit_all_or_nothing_c1 _ (by decide)

/-- C1 counterexample: the claim as stated is false — with every checked
step succeeding but the image decode (`IMG_Load`) failing (and therefore
the image texture upload failing too), `SDL_AppInit` still exposes an
`AppContext` and returns `SDL_APP_CONTINUE`, not a failure. -/
theorem SDL_AppInit_c1_counterexample :
    ((InitEnv.mk true true (some 1) (some 2) (some 3) (some 4)
        (some 5) (some 6) none none 100 28).imgLoadSurface = none) ∧
    (SDL_AppInit (InitEnv.mk true true (some 1) (some 2) (some 3) (some 4)
        (some 5) (some 6) none none 100 28)).1 ≠ none ∧
    (SDL_AppInit (InitEnv.mk true true (some 1) (some 2) (some 3) (some 4)
        (some 5) (some 6) none none 100 28)).2 = SDL_APP_CONTINUE := by
  refine ⟨rfl, ?_, rfl⟩
  simp [SDL_AppInit]

/-- C2: `SDL_AppQuit` with a live state issues exactly the teardown
sequence destroy-renderer, destroy-window, free-state, `TTF_Quit`, log,
`SDL_Quit`; under SDL's ownership semantics (`releasesHandle`, where
destroying the renderer also destroys the textures created from it)
every owned handle is released exactly once, and all releases happen
before the library shutdown calls.  With an absent state no handle is
released but both subsystem shutdowns still occur. -/
theorem SDL_AppQuit_releases_c2 :
    (∀ app : AppContext,
        (∀ h : Handle,
          (SDL_AppQuit (some app)).countP (fun a => releasesHandle a h) = 1) ∧
        SDL_AppQuit (some app) =
          [QuitAction.destroyRenderer app.renderer, QuitAction.destroyWindow app.window,
           QuitAction.freeState, QuitAction.ttfQuit, QuitAction.logQuitMessage,
           QuitAction.sdlQuit]) ∧
    SDL_AppQuit none = [QuitAction.ttfQuit, QuitAction.logQuitMessage, QuitAction.sdlQuit] ∧
    ∀ h : Handle, (SDL_AppQuit none).countP (fun a => releasesHandle a h) = 0 := by
  refine ⟨fun app => ⟨fun h => ?_, rfl⟩, rfl, fun h => ?_⟩
  · cases h <;> rfl
  · cases h <;> rfl

lemma event_messageDest (a : AppContext) (e : SDL_Event) :
    (SDL_AppEvent a e).1.messageDest = a.messageDest := by
  rcases e with ⟨ty, key⟩
  cases ty with
  | SDL_EVENT_QUIT => simp [SDL_AppEvent]
  | SDL_EVENT_KEY_DOWN => by_cases hk : key = SDLK_ESCAPE <;> simp [SDL_AppEvent, hk]
  | SDL_EVENT_OTHER c => simp [SDL_AppEvent]

set_option linter.unnecessarySeqFocus false in
/-- C6: whenever `SDL_AppInit` exposes a state, that state's
`messageDest` rectangle is exactly `(0, 0)` together with the queried
pixel width/height of the rasterized text texture, and neither
`SDL_AppEvent` nor `SDL_AppIterate` ever changes `messageDest` of any
state (`SDL_AppQuit` only frees the state and cannot modify it). -/
theorem messageDest_once_c6 :
    ∀ (env : InitEnv) (app : AppContext) (r : SDL_AppResult),
      SDL_AppInit env = (some app, r) →
      app.messageDest = ⟨0, 0, (env.messageTexW : ℚ), (env.messageTexH : ℚ)⟩ ∧
      (∀ (a : AppContext) (e : SDL_Event), (SDL_AppEvent a e).1.messageDest = a.messageDest) ∧
      (∀ (t : Nat) (a : AppContext), (SDL_AppIterate t a).app.messageDest = a.messageDest) := by
  intro env app r hinit
  refine ⟨?_, fun a e => event_messageDest a e, fun t a => (iterate_fields t a).2.2.2.2.1⟩
  rcases env with ⟨sdl, ttf, cw, cr, bp, fo, rts, mt, ils, it, tw, th⟩
  cases sdl <;> cases ttf <;> cases cw <;> cases cr <;> cases bp <;> cases fo <;>
    simp_all [SDL_AppInit] <;> simp [← hinit.1]

theorem messageDest_once_c6_witness :
    ({ window := 1, renderer := 2, messageTex := some 6, imageTex := some 7,
       messageDest := ⟨0, 0, 100, 28⟩, iteration := 0,
       app_quit := SDL_APP_CONTINUE } : AppContext).messageDest
      = ⟨0, 0, ((100 : Int) : ℚ), ((28 : Int) : ℚ)⟩ :=
  (messageDest_once_c6
    { sdlInitOK := true, ttfInitOK := true, createWindow := some 1,
      createRenderer := some 2, basePath := some 3, openFont := some 4,
      renderTextSurface := some 5, messageTexture := some 6, imgLoadSurface := some 8,
      imageTexture := some 7, messageTexW := 100, messageTexH := 28 }
    { window := 1, renderer := 2, messageTex := some 6, imageTex := some 7,
      messageDest := ⟨0, 0, 100, 28⟩, iteration := 0, app_quit := SDL_APP_CONTINUE }
    SDL_APP_CONTINUE (by decide)).1

lemma iterate_cmds (t : Nat) (app : AppContext) :
    (SDL_AppIterate t app).cmds =
      [RenderCmd.setDrawColor 255 255 255 255, RenderCmd.clear,
       RenderCmd.texture app.imageTex none none,
       RenderCmd.texture app.messageTex none (some app.messageDest),
       RenderCmd.present] := by
  simp only [SDL_AppIterate]
  split <;> rfl

/-- C7: every `SDL_AppIterate` call issues exactly the command sequence
clear-to-opaque-white (draw color 255,255,255,255 then clear), image
texture to the full render target, text texture to its fixed
destination rectangle, then present; and under the painter's-algorithm
semantics `applyCmds`, any point of the text destination rectangle
(in particular any point where text and image overlap, since the image
covers the whole target) is presented with the text texture's sample —
the later draw occludes the earlier one. -/
theorem iterate_draw_order_c7 :
    ∀ (target : SDL_FRect) (sample : TexSampler) (s0 : RenderState) (t : Nat)
      (app : AppContext) (p : Pixel),
      app.messageDest.contains p = true →
      dstCovers target none p = true →
      (SDL_AppIterate t app).cmds =
        [RenderCmd.setDrawColor 255 255 255 255, RenderCmd.clear,
         RenderCmd.texture app.imageTex none none,
         RenderCmd.texture app.messageTex none (some app.messageDest),
         RenderCmd.present] ∧
      ((applyCmds target sample s0 (SDL_AppIterate t app).cmds).presented.map
          fun f => f p)
        = some (sample app.messageTex none (some app.messageDest) p) := by
  intro target sample s0 t app p hm hi
  refine ⟨iterate_cmds t app, ?_⟩
  rw [iterate_cmds t app]
  simp [applyCmds, applyCmd, dstCovers, hm]

theorem iterate_draw_order_c7_witness :
    ((applyCmds ⟨0, 0, 600, 600⟩ (fun _ _ _ _ => ⟨9, 9, 9, 9⟩)
        { drawColor := ⟨0, 0, 0, 0⟩, fb := fun _ => ⟨0, 0, 0, 0⟩, presented := none }
        (SDL_AppIterate 0
          { window := 1, renderer := 2, messageTex := some 6, imageTex := some 7,
            messageDest := ⟨0, 0, 100, 28⟩, iteration := 0,
            app_quit := SDL_APP_CONTINUE }).cmds).presented.map
      fun f => f ⟨1, 1⟩) = some ⟨9, 9, 9, 9⟩ :=
  (iterate_draw_order_c7 ⟨0, 0, 600, 600⟩ (fun _ _ _ _ => ⟨9, 9, 9, 9⟩)
    { drawColor := ⟨0, 0, 0, 0⟩, fb := fun _ => ⟨0, 0, 0, 0⟩, presented := none } 0
    { window := 1, renderer := 2, messageTex := some 6, imageTex := some 7,
      messageDest := ⟨0, 0, 100, 28⟩, iteration := 0, app_quit := SDL_APP_CONTINUE }
    ⟨1, 1⟩ (by simp [SDL_FRect.contains])
    (by simp [dstCovers, SDL_FRect.contains])).2

/-- Consecutive tick reads are non-decreasing and at most one second
(1000 ms) apart: "Iterate is called at least once per second". -/
def gapOK (a b : Nat) : Prop := a ≤ b ∧ b ≤ a + 1000

instance : DecidableRel gapOK := fun a b => by
  unfold gapOK; infer_instance

lemma roundTicks_mono {a b : Nat} (h : a ≤ b) : roundTicks a ≤ roundTicks b := by
  unfold roundTicks; omega

lemma roundTicks_gap {a b : Nat} (h1 : a ≤ b) (h2 : b ≤ a + 1000) :
    roundTicks b ≤ roundTicks a + 1 := by
  unfold roundTicks; omega

lemma runIterate_cons (app : AppContext) (t : Nat) (ts : List Nat) :
    runIterate app (t :: ts) =
      ((runIterate (SDL_AppIterate t app).app ts).1,
       (SDL_AppIterate t app).logs ++ (runIterate (SDL_AppIterate t app).app ts).2) := rfl

lemma iterate_step (t : Nat) (w r : Nat) (mt it : Option Nat) (md : SDL_FRect)
    (aq : SDL_AppResult) (c : Nat) (hlo : c ≤ roundTicks t) (hhi : roundTicks t ≤ c + 1) :
    SDL_AppIterate t ⟨w, r, mt, it, md, (c : Int), aq⟩ =
      { app := ⟨w, r, mt, it, md, (roundTicks t : Int), aq⟩
        logs := (List.range' (c + 1) (roundTicks t - c)).map (fun n : Nat => (n : Int))
        cmds := [RenderCmd.setDrawColor 255 255 255 255, RenderCmd.clear,
                 RenderCmd.texture it none none, RenderCmd.texture mt none (some md),
                 RenderCmd.present]
        ret := aq } := by
  rcases Nat.lt_or_ge c (roundTicks t) with hlt | hge
  · have heq : roundTicks t = c + 1 := by omega
    have hg : ((roundTicks t : Nat) : Int) > ((c : Nat) : Int) := by exact_mod_cast hlt
    simp [SDL_AppIterate, hg, heq]
  · have heq : roundTicks t = c := by omega
    have hng : ¬ (((roundTicks t : Nat) : Int) > ((c : Nat) : Int)) := by
      rw [heq]
      exact lt_irrefl _
    simp [SDL_AppIterate, hng, heq]

lemma range'_map_glue (c s K : Nat) (h1 : c ≤ s) (h2 : s ≤ K) :
    (List.range' (c + 1) (s - c)).map (fun n : Nat => (n : Int)) ++
      (List.range' (s + 1) (K - s)).map (fun n : Nat => (n : Int)) =
      (List.range' (c + 1) (K - c)).map (fun n : Nat => (n : Int)) := by
  rw [← List.map_append]
  congr 1
  have h3 : s + 1 = (c + 1) + (s - c) := by omega
  rw [h3, List.range'_append_1]
  congr 1
  omega

lemma runIterate_go (ts : List Nat) :
    ∀ (t : Nat) (w r : Nat) (mt it : Option Nat) (md : SDL_FRect) (aq : SDL_AppResult)
      (c : Nat),
      c ≤ roundTicks t → roundTicks t ≤ c + 1 → List.Chain gapOK t ts →
      runIterate ⟨w, r, mt, it, md, (c : Int), aq⟩ (t :: ts) =
        (⟨w, r, mt, it, md,
            (roundTicks ((t :: ts).getLast (List.cons_ne_nil t ts)) : Int), aq⟩,
         (List.range' (c + 1)
             (roundTicks ((t :: ts).getLast (List.cons_ne_nil t ts)) - c)).map
           (fun n : Nat => (n : Int))) ∧
      c ≤ roundTicks ((t :: ts).getLast (List.cons_ne_nil t ts)) := by
  induction ts with
  | nil =>
      intro t w r mt it md aq c hlo hhi _
      refine ⟨?_, hlo⟩
      rw [runIterate_cons, iterate_step t w r mt it md aq c hlo hhi]
      simp [runIterate]
  | cons t' ts ih =>
      intro t w r mt it md aq c hlo hhi hchain
      rcases hchain with _ | ⟨hR, hchain'⟩
      obtain ⟨hle, hgap⟩ := hR
      have hmono : roundTicks t ≤ roundTicks t' := roundTicks_mono hle
      have hgap' : roundTicks t' ≤ roundTicks t + 1 := roundTicks_gap hle hgap
      obtain ⟨hrec, hcK⟩ := ih t' w r mt it md aq (roundTicks t) hmono hgap' hchain'
      have hlast : (t :: t' :: ts).getLast (List.cons_ne_nil t (t' :: ts))
          = (t' :: ts).getLast (List.cons_ne_nil t' ts) :=
        List.getLast_cons (List.cons_ne_nil t' ts)
      refine ⟨?_, ?_⟩
      · rw [runIterate_cons, iterate_step t w r mt it md aq c hlo hhi]
        simp only [hrec, hlast]
        refine Prod.ext rfl ?_
        simp only
        exact range'_map_glue c (roundTicks t) _ hlo hcK
      · rw [hlast]
        exact le_trans hlo hcK

lemma chain_gapOK_range' : ∀ (n a : Nat), List.Chain gapOK a (List.range' (a + 1) n)
  | 0, _ => List.Chain.nil
  | n + 1, a => by
      rw [List.range'_succ]
      exact List.Chain.cons ⟨by omega, by omega⟩ (chain_gapOK_range' n (a + 1))

/-- C3: when Iterate is called at least once per second (consecutive
tick reads at most 1000 ms apart, the first within the first rounded
second), the diagnostic log line is emitted exactly once per
integer-second value: the emitted lines are precisely
`1, 2, …, round(lastTick/1000)`, each exactly once, in order — never
twice for the same second, never skipped.  In particular, calling
Iterate on every millisecond tick for 3.2 seconds (ticks 0..3200) emits
the line exactly 3 times, with the second values 1, 2 and 3. -/
theorem iterate_log_once_per_second_c3 :
    (∀ (t : Nat) (ts : List Nat) (w r : Nat) (mt it : Option Nat) (md : SDL_FRect)
        (aq : SDL_AppResult),
        roundTicks t ≤ 1 → List.Chain gapOK t ts →
        (runIterate ⟨w, r, mt, it, md, 0, aq⟩ (t :: ts)).2 =
          (List.range' 1 (roundTicks ((t :: ts).getLast (List.cons_ne_nil t ts)))).map
            (fun n : Nat => (n : Int))) ∧
    ∀ (w r : Nat) (mt it : Option Nat) (md : SDL_FRect) (aq : SDL_AppResult),
      (runIterate ⟨w, r, mt, it, md, 0, aq⟩ (List.range 3201)).2 = [1, 2, 3] := by
  have main : ∀ (t : Nat) (ts : List Nat) (w r : Nat) (mt it : Option Nat)
      (md : SDL_FRect) (aq : SDL_AppResult),
      roundTicks t ≤ 1 → List.Chain gapOK t ts →
      (runIterate ⟨w, r, mt, it, md, 0, aq⟩ (t :: ts)).2 =
        (List.range' 1 (roundTicks ((t :: ts).getLast (List.cons_ne_nil t ts)))).map
          (fun n : Nat => (n : Int)) := by
    intro t ts w r mt it md aq hhi hchain
    have h := (runIterate_go ts t w r mt it md aq 0 (Nat.zero_le _) (by omega) hchain).1
    simp only [Nat.cast_zero] at h
    rw [h]
    simp
  refine ⟨main, ?_⟩
  intro w r mt it md aq
  have hrange : List.range 3201 = 0 :: List.range' 1 3200 := by
    rw [List.range_eq_range']
    rfl
  rw [hrange]
  have hchain : List.Chain gapOK 0 (List.range' 1 3200) := chain_gapOK_range' 3200 0
  have h := main 0 (List.range' 1 3200) w r mt it md aq (by norm_num [roundTicks]) hchain
  rw [h]
  rw [List.getLast_cons (show List.range' 1 3200 ≠ [] by simp)]
  rw [List.getLast_range']
  norm_num [roundTicks]
  decide

theorem iterate_log_once_per_second_c3_witness :
    (runIterate
      { window := 1, renderer := 2, messageTex := some 6, imageTex := some 7,
        messageDest := ⟨0, 0, 100, 28⟩, iteration := 0, app_quit := SDL_APP_CONTINUE }
      (0 :: [400, 900, 1600, 2100])).2 = [1, 2] :=
  iterate_log_once_per_second_c3.1 0 [400, 900, 1600, 2100] 1 2 (some 6) (some 7)
    ⟨0, 0, 100, 28⟩ SDL_APP_CONTINUE (by norm_num [roundTicks])
    (by norm_num [List.chain_cons, gapOK])
